import Mathlib

/-!
Shallow embedding of the V2Root subscription-management and probe-orchestration
core (src/v2root/subscription.py, src/v2root/v2root.py, and the batch-ranking
contract used by src/examples/subscription_manager.py), together with theorems
settling the specification claims against it.

Python strings are modelled as Lean strings operated on through their
character lists; Python ints as Lean Int/Nat; Python floats that hold exact
ratios of small integers (success rates) as Lean rationals; exceptions as
Except values.  Library calls made by the source (str.strip, str.splitlines,
int(), urllib.parse.unquote, base64.b64decode, bytes.decode) are modelled by
executable Lean functions below that follow the CPython semantics of those
calls.
-/

namespace V2Root

/-! ## Python string primitives -/

/-- Whitespace characters stripped by Python str.strip (ASCII whitespace,
the C1 separators, NEL, NBSP and the Unicode space separators). -/
def isPySpace (c : Char) : Bool :=
  let n := c.toNat
  n = 32 || n = 9 || n = 10 || n = 13 || n = 11 || n = 12 ||
  (28 ≤ n && n ≤ 31) || n = 133 || n = 160 || n = 5760 ||
  (8192 ≤ n && n ≤ 8202) || n = 8232 || n = 8233 || n = 8239 ||
  n = 8287 || n = 12288

/-- Python str.strip on a character list. -/
def pyStrip (cs : List Char) : List Char :=
  ((cs.dropWhile isPySpace).reverse.dropWhile isPySpace).reverse

/-- Line-boundary characters recognised by Python str.splitlines. -/
def isPyLineBreak (c : Char) : Bool :=
  let n := c.toNat
  n = 10 || n = 13 || n = 11 || n = 12 || n = 28 ||
  n = 29 || n = 30 || n = 133 || n = 8232 || n = 8233

/-- Python str.splitlines: split at line boundaries, treating a CRLF pair as
one boundary; a trailing boundary does not produce a final empty line. -/
def pySplitlinesAux : List Char → List Char → List (List Char)
  | [], acc => if acc.isEmpty then [] else [acc.reverse]
  | '\r' :: '\n' :: rest, acc => acc.reverse :: pySplitlinesAux rest []
  | c :: rest, acc =>
    if isPyLineBreak c then acc.reverse :: pySplitlinesAux rest []
    else pySplitlinesAux rest (c :: acc)

def pySplitlines (cs : List Char) : List (List Char) :=
  pySplitlinesAux cs []

/-- Everything after the first occurrence of a character: Python
s.split(sep, 1)[1] for a one-character separator known to occur. -/
def afterFirstChar (c : Char) : List Char → List Char
  | [] => []
  | x :: rest => if x = c then rest else afterFirstChar c rest

/-- Everything before the first occurrence of a character: Python
s.split(sep, 1)[0] for a one-character separator. -/
def beforeFirstChar (c : Char) (cs : List Char) : List Char :=
  cs.takeWhile (fun x => x ≠ c)

/-- Split at the first occurrence of a multi-character separator, returning
the parts before and after it; none when the separator does not occur
(Python s.split(sep, 1) producing a single element). -/
def splitOnceSeq (sep : List Char) : List Char → Option (List Char × List Char)
  | [] => none
  | c :: rest =>
    if sep.isPrefixOf (c :: rest) then some ([], (c :: rest).drop sep.length)
    else (splitOnceSeq sep rest).map (fun p => (c :: p.1, p.2))

/-- Whether a character sequence occurs as a contiguous subsequence
(Python: sep in s). -/
def containsSeq (sep : List Char) : List Char → Bool
  | [] => sep.isEmpty
  | c :: rest => sep.isPrefixOf (c :: rest) || containsSeq sep rest

/-- Digits of a Python int literal body: nonempty ASCII digits with single
underscores allowed only between digits. -/
def pyDigitsAux : Nat → List Char → Option Nat
  | acc, [] => some acc
  | acc, '_' :: d :: rest =>
    if d.isDigit then pyDigitsAux (acc * 10 + (d.toNat - 48)) rest else none
  | _, '_' :: [] => none
  | acc, d :: rest =>
    if d.isDigit then pyDigitsAux (acc * 10 + (d.toNat - 48)) rest else none

def pyDigits : List Char → Option Nat
  | [] => none
  | '_' :: _ => none
  | d :: rest =>
    if d.isDigit then pyDigitsAux (d.toNat - 48) rest else none

/-- Python int(str): strip whitespace, optional sign, ASCII digit body.
Returns none where CPython raises ValueError. -/
def pyInt (cs : List Char) : Option Int :=
  match pyStrip cs with
  | '+' :: ds => (pyDigits ds).map (Int.ofNat ·)
  | '-' :: ds => (pyDigits ds).map (fun n => -(Int.ofNat n))
  | ds => (pyDigits ds).map (Int.ofNat ·)

/-! ## UTF-8 and percent decoding -/

/-- UTF-8 encoding of one scalar value, as byte values. -/
def utf8EncodeChar (c : Char) : List Nat :=
  let n := c.toNat
  if n < 128 then [n]
  else if n < 2048 then [192 + n / 64, 128 + n % 64]
  else if n < 65536 then [224 + n / 4096, 128 + n / 64 % 64, 128 + n % 64]
  else [240 + n / 262144, 128 + n / 4096 % 64, 128 + n / 64 % 64, 128 + n % 64]

def isUtf8Cont (b : Nat) : Bool := 128 ≤ b && b ≤ 191

/-- Valid range of the second byte of a 3-byte UTF-8 sequence with the given
lead byte (excludes overlong forms and surrogates). -/
def utf8Range3 (b : Nat) (b1 : Nat) : Bool :=
  if b = 224 then 160 ≤ b1 && b1 ≤ 191
  else if b = 237 then 128 ≤ b1 && b1 ≤ 159
  else isUtf8Cont b1

/-- Valid range of the second byte of a 4-byte UTF-8 sequence with the given
lead byte (excludes overlong forms and values above U+10FFFF). -/
def utf8Range4 (b : Nat) (b1 : Nat) : Bool :=
  if b = 240 then 144 ≤ b1 && b1 ≤ 191
  else if b = 244 then 128 ≤ b1 && b1 ≤ 143
  else isUtf8Cont b1

/-- Strict UTF-8 decoding of a byte list (CPython bytes.decode with the
default error handler): none on any invalid sequence. -/
def utf8DecodeStrict : List Nat → Option (List Char)
  | [] => some []
  | b :: rest =>
    if b < 128 then
      (utf8DecodeStrict rest).map (Char.ofNat b :: ·)
    else if 194 ≤ b && b ≤ 223 then
      match rest with
      | b1 :: r1 =>
        if isUtf8Cont b1 then
          (utf8DecodeStrict r1).map (Char.ofNat ((b - 192) * 64 + (b1 - 128)) :: ·)
        else none
      | [] => none
    else if 224 ≤ b && b ≤ 239 then
      match rest with
      | b1 :: b2 :: r2 =>
        if utf8Range3 b b1 && isUtf8Cont b2 then
          (utf8DecodeStrict r2).map
            (Char.ofNat ((b - 224) * 4096 + (b1 - 128) * 64 + (b2 - 128)) :: ·)
        else none
      | _ => none
    else if 240 ≤ b && b ≤ 244 then
      match rest with
      | b1 :: b2 :: b3 :: r3 =>
        if utf8Range4 b b1 && isUtf8Cont b2 && isUtf8Cont b3 then
          (utf8DecodeStrict r3).map
            (Char.ofNat ((b - 240) * 262144 + (b1 - 128) * 4096 +
              (b2 - 128) * 64 + (b3 - 128)) :: ·)
        else none
      | _ => none
    else none

/-- The replacement character U+FFFD. -/
def replChar : Char := Char.ofNat 65533

/-- UTF-8 decoding with the replace error handler (CPython
bytes.decode(..., errors=replace)): each maximal subpart of an ill-formed
sequence becomes one U+FFFD.  The fuel argument is an upper bound on the
number of bytes and only makes the recursion structural. -/
def utf8DecodeReplaceAux : Nat → List Nat → List Char
  | 0, _ => []
  | _ + 1, [] => []
  | fuel + 1, b :: rest =>
    if b < 128 then Char.ofNat b :: utf8DecodeReplaceAux fuel rest
    else if 194 ≤ b && b ≤ 223 then
      match rest with
      | b1 :: r1 =>
        if isUtf8Cont b1 then
          Char.ofNat ((b - 192) * 64 + (b1 - 128)) :: utf8DecodeReplaceAux fuel r1
        else replChar :: utf8DecodeReplaceAux fuel rest
      | [] => [replChar]
    else if 224 ≤ b && b ≤ 239 then
      match rest with
      | b1 :: r1 =>
        if utf8Range3 b b1 then
          match r1 with
          | b2 :: r2 =>
            if isUtf8Cont b2 then
              Char.ofNat ((b - 224) * 4096 + (b1 - 128) * 64 + (b2 - 128)) ::
                utf8DecodeReplaceAux fuel r2
            else replChar :: utf8DecodeReplaceAux fuel r1
          | [] => [replChar]
        else replChar :: utf8DecodeReplaceAux fuel rest
      | [] => [replChar]
    else if 240 ≤ b && b ≤ 244 then
      match rest with
      | b1 :: r1 =>
        if utf8Range4 b b1 then
          match r1 with
          | b2 :: r2 =>
            if isUtf8Cont b2 then
              match r2 with
              | b3 :: r3 =>
                if isUtf8Cont b3 then
                  Char.ofNat ((b - 240) * 262144 + (b1 - 128) * 4096 +
                    (b2 - 128) * 64 + (b3 - 128)) :: utf8DecodeReplaceAux fuel r3
                else replChar :: utf8DecodeReplaceAux fuel r2
              | [] => [replChar]
            else replChar :: utf8DecodeReplaceAux fuel r1
          | [] => [replChar]
        else replChar :: utf8DecodeReplaceAux fuel rest
      | [] => [replChar]
    else replChar :: utf8DecodeReplaceAux fuel rest

def utf8DecodeReplace (bs : List Nat) : List Char :=
  utf8DecodeReplaceAux bs.length bs

def isHexChar (c : Char) : Bool :=
  c.isDigit || ('a' ≤ c && c ≤ 'f') || ('A' ≤ c && c ≤ 'F')

def hexVal (c : Char) : Nat :=
  if c.isDigit then c.toNat - 48
  else if 'a' ≤ c && c ≤ 'f' then c.toNat - 87
  else c.toNat - 55

/-- Byte stream underlying urllib.parse.unquote: each valid percent escape
contributes its byte, every other character its UTF-8 bytes (an invalid
escape keeps its literal percent sign). -/
def unquoteBytes : List Char → List Nat
  | '%' :: h1 :: h2 :: rest =>
    if isHexChar h1 && isHexChar h2 then
      (hexVal h1 * 16 + hexVal h2) :: unquoteBytes rest
    else utf8EncodeChar '%' ++ unquoteBytes (h1 :: h2 :: rest)
  | c :: rest => utf8EncodeChar c ++ unquoteBytes rest
  | [] => []

/-- urllib.parse.unquote with its default handlers (UTF-8, errors=replace). -/
def pyUnquote (cs : List Char) : List Char :=
  utf8DecodeReplace (unquoteBytes cs)

/-! ## Base64 decoding (CPython base64.b64decode on a str argument) -/

/-- Value of a standard base64 alphabet character. -/
def b64Val (c : Char) : Option Nat :=
  if 'A' ≤ c && c ≤ 'Z' then some (c.toNat - 65)
  else if 'a' ≤ c && c ≤ 'z' then some (c.toNat - 97 + 26)
  else if c.isDigit then some (c.toNat - 48 + 52)
  else if c = '+' then some 62
  else if c = '/' then some 63
  else none

/-- Bytes of one complete base64 quad. -/
def b64QuadBytes (q : List Nat) : List Nat :=
  match q with
  | [a, b, c, d] => [a * 4 + b / 16, b % 16 * 16 + c / 4, c % 4 * 64 + d]
  | _ => []

/-- Bytes of the partial quad terminated by padding (two or three data
characters). -/
def b64PartialBytes (q : List Nat) : List Nat :=
  match q with
  | [a, b] => [a * 4 + b / 16]
  | [a, b, c] => [a * 4 + b / 16, b % 16 * 16 + c / 4]
  | _ => []

/-- CPython binascii.a2b_base64 in its default lenient mode: characters
outside the alphabet are skipped; an equals sign is counted as padding (a
later data character resets the count) and once a quad of two or three data
characters has enough padding decoding stops there; leftover data characters
at the end are an error. -/
def a2bBase64 : List Char → List Nat → List Nat → Nat → Option (List Nat)
  | [], out, quad, _ => if quad.isEmpty then some out else none
  | '=' :: rest, out, quad, pads =>
    if 2 ≤ quad.length && 4 ≤ quad.length + (pads + 1) then
      some (out ++ b64PartialBytes quad)
    else a2bBase64 rest out quad (pads + 1)
  | c :: rest, out, quad, pads =>
    match b64Val c with
    | none => a2bBase64 rest out quad pads
    | some v =>
      let q := quad ++ [v]
      if q.length = 4 then a2bBase64 rest (out ++ b64QuadBytes q) [] 0
      else a2bBase64 rest out q 0

/-- base64.b64decode on a str: the argument is first encoded as ASCII
(ValueError on any non-ASCII character), then decoded leniently. -/
def pyB64Decode (cs : List Char) : Option (List Nat) :=
  if cs.all (fun c => c.toNat ≤ 127) then a2bBase64 cs [] [] 0 else none

/-- base64.b64decode followed by strict bytes.decode(utf-8), the composite
used by the source; none where either step raises. -/
def pyB64DecodeUtf8 (cs : List Char) : Option (List Char) :=
  (pyB64Decode cs).bind utf8DecodeStrict

/-! ## ConfigMetadata (src/v2root/subscription.py lines 39 to 183) -/

/-- Python runtime errors that the embedded code can raise. -/
inductive PyErr where
  | keyError
  | attributeError
deriving DecidableEq, Repr

/-- One endpoint record: the fields assigned by ConfigMetadata.init_.
Timestamps are modelled as naturals, latencies and ports as integers. -/
structure ConfigMetadata where
  config_string : String
  protocol : String
  name : String
  address : String
  port : Int
  last_test_time : Nat
  last_latency : Int
  success_count : Nat
  failure_count : Nat
  tags : List String
deriving DecidableEq, Repr

/-- ConfigMetadata.extract_protocol_: first of the five scheme names whose
prefix starts the lowercased string, else unknown. -/
def extract_protocol (config_string : String) : String :=
  let lowered := config_string.data.map Char.toLower
  if ("vmess://".data).isPrefixOf lowered then "vmess"
  else if ("vless://".data).isPrefixOf lowered then "vless"
  else if ("trojan://".data).isPrefixOf lowered then "trojan"
  else if ("ss://".data).isPrefixOf lowered then "ss"
  else if ("ssr://".data).isPrefixOf lowered then "ssr"
  else "unknown"

/-- One alternative of the regex remark|remarks followed by an equals sign at
the current position, capturing the nonempty run of characters other than
an ampersand ([^&]+, greedy). -/
def remarkAt (cs : List Char) : Option (List Char) :=
  if ("remark=".data).isPrefixOf cs then
    let g := (cs.drop 7).takeWhile (fun c => c ≠ '&')
    if g.isEmpty then none else some g
  else if ("remarks=".data).isPrefixOf cs then
    let g := (cs.drop 8).takeWhile (fun c => c ≠ '&')
    if g.isEmpty then none else some g
  else none

/-- re.search for the remark pattern: leftmost position wins. -/
def findRemarkGroup : List Char → Option (List Char)
  | [] => none
  | c :: rest =>
    match remarkAt (c :: rest) with
    | some g => some g
    | none => findRemarkGroup rest

/-- ConfigMetadata.extract_name_: the percent-decoded fragment after a hash
sign when one occurs (unquote is total, so that branch always returns);
otherwise the base64-then-UTF-8 decoded remark parameter when the regex
matches and decoding succeeds; otherwise the fixed placeholder.  When
decoding fails the code falls through to the placeholder: the except
handler around b64decode only passes. -/
def extract_name (config_string : String) : String :=
  let cs := config_string.data
  if cs.contains '#' then ⟨pyUnquote (afterFirstChar '#' cs)⟩
  else
    match findRemarkGroup cs with
    | some g =>
      match pyB64DecodeUtf8 g with
      | some decoded => ⟨decoded⟩
      | none => "Unnamed Config"
    | none => "Unnamed Config"

/-- ConfigMetadata.extract_address_: strip the scheme (IndexError when no
scheme separator occurs is caught and yields unknown), strip a credential
part before an at sign, strip path and query, then take the part before a
colon. -/
def extract_address (config_string : String) : String :=
  match splitOnceSeq "://".data config_string.data with
  | none => "unknown"
  | some (_, t0) =>
    let t1 := if t0.contains '@' then afterFirstChar '@' t0 else t0
    let t2 := beforeFirstChar '/' t1
    let t3 := beforeFirstChar '?' t2
    ⟨beforeFirstChar ':' t3⟩

/-- ConfigMetadata.extract_port_: like the address extraction but taking the
int after the colon; any exception (missing scheme, no digits) yields the
default port 443. -/
def extract_port (config_string : String) : Int :=
  match splitOnceSeq "://".data config_string.data with
  | none => 443
  | some (_, t0) =>
    let t1 := if t0.contains '@' then afterFirstChar '@' t0 else t0
    let t2 := beforeFirstChar '/' t1
    let t3 := beforeFirstChar '?' t2
    if t3.contains ':' then
      match pyInt (afterFirstChar ':' t3) with
      | some n => n
      | none => 443
    else 443

/-- ConfigMetadata.init_: total constructor (each extractor catches its own
exceptions), statistics start untested. -/
def mkConfigMetadata (config_string : String) : ConfigMetadata :=
  { config_string := config_string
    protocol := extract_protocol config_string
    name := extract_name config_string
    address := extract_address config_string
    port := extract_port config_string
    last_test_time := 0
    last_latency := -1
    success_count := 0
    failure_count := 0
    tags := [] }

/-- ConfigMetadata.get_success_rate: zero when untested, else the exact
ratio of successes to total tests. -/
def ConfigMetadata.get_success_rate (c : ConfigMetadata) : ℚ :=
  if c.success_count + c.failure_count = 0 then 0
  else mkRat c.success_count (c.success_count + c.failure_count)

/-- The dictionary produced and consumed by ConfigMetadata.to_dict and
ConfigMetadata.from_dict; optional fields model dict.get with a default. -/
structure ConfigDict where
  config_string : Option String
  protocol : Option String
  name : Option String
  address : Option String
  port : Option Int
  last_test_time : Option Nat
  last_latency : Option Int
  success_count : Option Nat
  failure_count : Option Nat
  tags : Option (List String)
deriving DecidableEq, Repr

/-- ConfigMetadata.to_dict: every key present. -/
def ConfigMetadata.to_dict (c : ConfigMetadata) : ConfigDict :=
  { config_string := some c.config_string
    protocol := some c.protocol
    name := some c.name
    address := some c.address
    port := some c.port
    last_test_time := some c.last_test_time
    last_latency := some c.last_latency
    success_count := some c.success_count
    failure_count := some c.failure_count
    tags := some c.tags }

/-- ConfigMetadata.from_dict: construct from the config string (KeyError if
the key is missing), then overwrite each field with the stored value when
present, falling back to the derived value for the descriptive fields and
to the untested defaults for the statistics. -/
def ConfigMetadata.from_dict (d : ConfigDict) : Except PyErr ConfigMetadata :=
  match d.config_string with
  | none => .error .keyError
  | some s =>
    let c := mkConfigMetadata s
    .ok { config_string := s
          protocol := d.protocol.getD c.protocol
          name := d.name.getD c.name
          address := d.address.getD c.address
          port := d.port.getD c.port
          last_test_time := d.last_test_time.getD 0
          last_latency := d.last_latency.getD (-1)
          success_count := d.success_count.getD 0
          failure_count := d.failure_count.getD 0
          tags := d.tags.getD [] }

/-! ## Subscription fetch and parse (src/v2root/subscription.py 186 to 526) -/

/-- Subscription-level exceptions: FetchError and ParseError are sibling
subclasses of SubscriptionError, so a handler for one never catches the
other. -/
inductive SubError where
  | fetchError (msg : String)
  | parseError (msg : String)
deriving DecidableEq, Repr

/-- The message carried by an exception (str(e)). -/
def SubError.msg : SubError → String
  | .fetchError m => m
  | .parseError m => m

/-- The tuple of valid scheme prefixes checked in parse_content_, in source
order. -/
def validSchemes : List (List Char) :=
  ["vmess://".data, "vless://".data, "ss://".data, "trojan://".data,
   "ssr://".data]

/-- Stripped nonempty lines of a text (the comprehension over splitlines
used throughout parse_content_). -/
def strippedLines (cs : List Char) : List (List Char) :=
  ((pySplitlines cs).map pyStrip).filter (fun l => !l.isEmpty)

/-- The candidate lines of the content after the base64 heuristic: content
with no space, no newline and more than 100 characters is padded to a
multiple of four and base64-decoded as a whole, falling back to the raw
text when decoding or the strict UTF-8 decode throws; otherwise the text is
taken as plain lines. -/
def heuristicLines (content : List Char) : List (List Char) :=
  if !content.contains ' ' && !content.contains '\n' && 100 < content.length then
    let padding := if content.length % 4 = 0 then 0 else 4 - content.length % 4
    let padded := content ++ List.replicate padding '='
    match pyB64DecodeUtf8 padded with
    | some decoded => strippedLines decoded
    | none => strippedLines content
  else strippedLines content

/-- A line survives the validity filter when its lowercased form starts with
one of the five scheme prefixes. -/
def isValidConfigLine (l : List Char) : Bool :=
  validSchemes.any (fun p => p.isPrefixOf (l.map Char.toLower))

/-- The surviving configuration lines of a subscription body. -/
def validConfigLines (content : String) : List String :=
  ((heuristicLines content.data).filter isValidConfigLine).map (fun l => ⟨l⟩)

/-- Subscription.find_existing_config_: first previous record whose raw
descriptor string equals the given one. -/
def find_existing_config (configs : List ConfigMetadata) (s : String) :
    Option ConfigMetadata :=
  configs.find? (fun c => c.config_string == s)

/-- One step of the merge loop in parse_content_: build the fresh record and
copy the test-history fields from the first matching previous record. -/
def mergeConfig (old : List ConfigMetadata) (s : String) : ConfigMetadata :=
  let c := mkConfigMetadata s
  match find_existing_config old s with
  | some e =>
    { c with last_test_time := e.last_test_time
             last_latency := e.last_latency
             success_count := e.success_count
             failure_count := e.failure_count
             tags := e.tags }
  | none => c

/-- Subscription.parse_content_: decode and filter the lines, raise
ParseError when none survive, else produce the merged record list that
replaces the subscription's previous list.  The constructor is total, so
the per-record try/except never fires and the loop is a map. -/
def parse_content (oldConfigs : List ConfigMetadata) (content : String) :
    Except SubError (List ConfigMetadata) :=
  let valid := validConfigLines content
  if valid.isEmpty then
    .error (.parseError "No valid configurations found in subscription")
  else .ok (valid.map (mergeConfig oldConfigs))

/-- The mutable attributes of a Subscription touched by fetch. -/
structure SubState where
  configs : List ConfigMetadata
  last_update_time : Nat
  last_fetch_success : Bool
  last_error_message : String
  total_updates : Nat
  successful_updates : Nat
  failed_updates : Nat
deriving DecidableEq, Repr

/-- Outcome of the urlopen call plus the total decode fallback chain
(UTF-8, UTF-8 with BOM, Latin-1 — the chain never fails, so a transport
success always yields text). -/
inductive NetResult where
  | urlError (msg : String)
  | ok (content : String)

/-- Subscription.fetch: increment total_updates before the attempt; on
transport failure record the failure and raise FetchError; on transport
success record success (timestamp, flag, successful_updates) and then parse.
A ParseError thrown by parse_content_ propagates into the generic except
Exception handler of fetch, which records a failure on top of the already
recorded success and raises FetchError. -/
def fetch (st : SubState) (net : NetResult) (now : Nat) :
    SubState × Except SubError (List ConfigMetadata) :=
  let st1 := { st with total_updates := st.total_updates + 1 }
  match net with
  | .urlError msg =>
    ({ st1 with last_fetch_success := false
                last_error_message := msg
                failed_updates := st1.failed_updates + 1 },
     .error (.fetchError ("Failed to fetch subscription: " ++ msg)))
  | .ok content =>
    let st2 := { st1 with last_update_time := now
                          last_fetch_success := true
                          last_error_message := ""
                          successful_updates := st1.successful_updates + 1 }
    match parse_content st2.configs content with
    | .ok newConfigs => ({ st2 with configs := newConfigs }, .ok newConfigs)
    | .error e =>
      ({ st2 with last_fetch_success := false
                  last_error_message := e.msg
                  failed_updates := st2.failed_updates + 1 },
       .error (.fetchError ("Unexpected error fetching subscription: " ++ e.msg)))

/-! ## Subscription.filter_configs (src/v2root/subscription.py 448 to 526) -/

/-- A config passes the tested check of the diagnostic: a positive recorded
latency or at least one accumulated test. -/
def isTested (c : ConfigMetadata) : Bool :=
  decide (0 < c.last_latency) || decide (0 < c.success_count + c.failure_count)

/-- Protocol filter stage (applied only when the argument is truthy, that
is, a nonempty list was passed). -/
def filterByProtocols (protocols : Option (List String))
    (l : List ConfigMetadata) : List ConfigMetadata :=
  match protocols with
  | some ps => if ps.isEmpty then l else l.filter (fun c => ps.contains c.protocol)
  | none => l

/-- Success-rate filter stage: at least one accumulated test and a rate at
least the bound. -/
def filterByRate (minRate : Option ℚ) (l : List ConfigMetadata) :
    List ConfigMetadata :=
  match minRate with
  | some r =>
    l.filter (fun c =>
      decide (0 < c.success_count + c.failure_count) &&
      decide (r ≤ c.get_success_rate))
  | none => l

/-- Latency filter stage: a positive recorded latency no larger than the
bound. -/
def filterByLatency (maxLatency : Option Int) (l : List ConfigMetadata) :
    List ConfigMetadata :=
  match maxLatency with
  | some x =>
    l.filter (fun c =>
      decide (0 < c.last_latency) && decide (c.last_latency ≤ x))
  | none => l

/-- Tag filter stage: the config carries at least one requested tag. -/
def filterByTags (tags : Option (List String)) (l : List ConfigMetadata) :
    List ConfigMetadata :=
  match tags with
  | some ts => if ts.isEmpty then l else l.filter (fun c => ts.any c.tags.contains)
  | none => l

/-- Name filter stage; the matcher models the compiled case-insensitive
regex searched against the name, and is absent when name_contains is not
truthy. -/
def filterByName (matcher : Option (String → Bool))
    (l : List ConfigMetadata) : List ConfigMetadata :=
  match matcher with
  | some m => l.filter (fun c => m c.name)
  | none => l

/-- Subscription.filter_configs: validate the bounds (ValueError carries the
message), emit the untested diagnostic when a rate or latency filter is
requested but no config passes the tested check, then apply the stages in
source order.  The boolean in the result records whether the diagnostic was
printed. -/
def sub_filter_configs (configs : List ConfigMetadata)
    (protocols : Option (List String)) (minRate : Option ℚ)
    (maxLatency : Option Int) (tags : Option (List String))
    (matcher : Option (String → Bool)) :
    Except String (List ConfigMetadata × Bool) :=
  let badRate := match minRate with
    | some r => !(decide (0 ≤ r) && decide (r ≤ 1))
    | none => false
  if badRate then .error "min_success_rate must be between 0.0 and 1.0"
  else
    let badLatency := match maxLatency with
      | some x => decide (x < 0)
      | none => false
    if badLatency then .error "max_latency must be non-negative"
    else
      let diagnostic := (minRate.isSome || maxLatency.isSome) &&
        (configs.filter isTested).isEmpty
      let l1 := filterByProtocols protocols configs
      let l2 := filterByRate minRate l1
      let l3 := filterByLatency maxLatency l2
      let l4 := filterByTags tags l3
      let l5 := filterByName matcher l4
      .ok (l5, diagnostic)

/-! ## SubscriptionManager (src/v2root/subscription.py 642 to 919) -/

/-- The attributes of one stored subscription that the manager-level
aggregation reads. -/
structure SubRecord where
  enabled : Bool
  tags : List String
  configs : List ConfigMetadata

/-- SubscriptionManager.get_all_configs with its default enabled_only=True:
the configuration STRINGS of every enabled subscription. -/
def get_all_configs (subs : List SubRecord) : List String :=
  (subs.filter (fun s => s.enabled)).foldr
    (fun s acc => s.configs.map (fun c => c.config_string) ++ acc) []

/-- A value in the heterogeneous all_configs list of
SubscriptionManager.filter_configs: get_all_configs supplies raw strings,
the subscription-tag branch supplies ConfigMetadata objects. -/
inductive PyConfig where
  | strv (s : String)
  | metav (c : ConfigMetadata)
deriving DecidableEq, Repr

/-- Attribute access c.last_latency: AttributeError on a raw string. -/
def PyConfig.lastLatency : PyConfig → Except PyErr Int
  | .strv _ => .error .attributeError
  | .metav c => .ok c.last_latency

/-- Attribute access c.success_count. -/
def PyConfig.successCount : PyConfig → Except PyErr Nat
  | .strv _ => .error .attributeError
  | .metav c => .ok c.success_count

/-- Attribute access c.failure_count. -/
def PyConfig.failureCount : PyConfig → Except PyErr Nat
  | .strv _ => .error .attributeError
  | .metav c => .ok c.failure_count

/-- Attribute access c.protocol. -/
def PyConfig.protocolAttr : PyConfig → Except PyErr String
  | .strv _ => .error .attributeError
  | .metav c => .ok c.protocol

/-- Attribute access c.tags. -/
def PyConfig.tagsAttr : PyConfig → Except PyErr (List String)
  | .strv _ => .error .attributeError
  | .metav c => .ok c.tags

/-- Attribute access c.name. -/
def PyConfig.nameAttr : PyConfig → Except PyErr String
  | .strv _ => .error .attributeError
  | .metav c => .ok c.name

/-- Method call c.get_success_rate(). -/
def PyConfig.successRate : PyConfig → Except PyErr ℚ
  | .strv _ => .error .attributeError
  | .metav c => .ok c.get_success_rate

/-- A list comprehension with a possibly raising predicate, evaluated left
to right and aborted by the first exception. -/
def exFilter (p : α → Except PyErr Bool) : List α → Except PyErr (List α)
  | [] => .ok []
  | x :: xs =>
    match p x with
    | .error e => .error e
    | .ok b =>
      match exFilter p xs with
      | .error e => .error e
      | .ok rest => .ok (if b then x :: rest else rest)

/-- The tested predicate of the manager diagnostic, with Python left-to-right
short circuiting: c.last_latency is read first, so a raw string raises
before anything else. -/
def pyTested (c : PyConfig) : Except PyErr Bool := do
  let ll ← c.lastLatency
  if 0 < ll then pure true
  else do
    let sc ← c.successCount
    let fc ← c.failureCount
    pure (decide (0 < sc + fc))

/-- Errors surfaced by SubscriptionManager.filter_configs: the explicit
ValueError on bad bounds, or a runtime error escaping a comprehension. -/
inductive MgrErr where
  | valueError (msg : String)
  | runtime (e : PyErr)
deriving DecidableEq, Repr

/-- One execution step of the filter pipeline: propagate an already raised
error, otherwise run the next comprehension, promoting a Python runtime
error escaping it into the surfaced error. -/
def mgrStep (acc : Except MgrErr (List PyConfig))
    (f : List PyConfig → Except PyErr (List PyConfig)) :
    Except MgrErr (List PyConfig) :=
  match acc with
  | .error e => .error e
  | .ok l => match f l with
    | .error e => .error (.runtime e)
    | .ok l2 => .ok l2

/-- The protocol comprehension of SubscriptionManager.filter_configs
(applied only when the argument is truthy). -/
def mgrProtocolsStage (protocols : Option (List String))
    (l : List PyConfig) : Except PyErr (List PyConfig) :=
  match protocols with
  | some ps =>
    if ps.isEmpty then .ok l
    else exFilter (fun c => (c.protocolAttr).map ps.contains) l
  | none => .ok l

/-- The success-rate comprehension: at least one accumulated test (checked
first, with Python short circuiting) and a rate at least the bound. -/
def mgrRateStage (minRate : Option ℚ) (l : List PyConfig) :
    Except PyErr (List PyConfig) :=
  match minRate with
  | some r =>
    exFilter (fun c => do
      let sc ← c.successCount
      let fc ← c.failureCount
      if 0 < sc + fc then do
        let rate ← c.successRate
        pure (decide (r ≤ rate))
      else pure false) l
  | none => .ok l

/-- The latency comprehension: a positive recorded latency no larger than
the bound. -/
def mgrLatencyStage (maxLatency : Option Int) (l : List PyConfig) :
    Except PyErr (List PyConfig) :=
  match maxLatency with
  | some x =>
    exFilter (fun c => do
      let ll ← c.lastLatency
      if 0 < ll then pure (decide (ll ≤ x)) else pure false) l
  | none => .ok l

/-- The config-tag comprehension (applied only when truthy). -/
def mgrTagsStage (configTags : Option (List String)) (l : List PyConfig) :
    Except PyErr (List PyConfig) :=
  match configTags with
  | some ts =>
    if ts.isEmpty then .ok l
    else exFilter (fun c => (c.tagsAttr).map (fun tg => ts.any tg.contains)) l
  | none => .ok l

/-- The name comprehension (the matcher models the compiled pattern search,
absent when name_contains is not truthy). -/
def mgrNameStage (matcher : Option (String → Bool)) (l : List PyConfig) :
    Except PyErr (List PyConfig) :=
  match matcher with
  | some m => exFilter (fun c => (c.nameAttr).map m) l
  | none => .ok l

/-- The all_configs value entering the comprehensions: the raw strings of
every enabled subscription, replaced by the ConfigMetadata lists of the
enabled subscriptions carrying a requested tag when subscription_tags is
truthy. -/
def mgrInitial (subs : List SubRecord)
    (subscriptionTags : Option (List String)) : List PyConfig :=
  match subscriptionTags with
  | some ts =>
    if ts.isEmpty then (get_all_configs subs).map PyConfig.strv
    else
      ((subs.filter (fun s => s.enabled && ts.any s.tags.contains)).foldr
        (fun s acc => s.configs.map PyConfig.metav ++ acc) [])
  | none => (get_all_configs subs).map PyConfig.strv

/-- The min_success_rate validation check of the manager-level filter:
true exactly when a bound outside the unit interval was passed. -/
def badRateCheck (minRate : Option ℚ) : Bool :=
  match minRate with
  | some r => !(decide (0 ≤ r) && decide (r ≤ 1))
  | none => false

/-- The max_latency validation check: true exactly when a negative bound
was passed. -/
def badLatencyCheck (maxLatency : Option Int) : Bool :=
  match maxLatency with
  | some x => decide (x < 0)
  | none => false

/-- SubscriptionManager.filter_configs: validate bounds, aggregate the raw
strings of all enabled subscriptions, run the tested diagnostic when a rate
or latency filter is requested (this touches c.last_latency on raw strings),
optionally rescope to the ConfigMetadata lists of tagged subscriptions, then
apply the filter comprehensions in source order.  The boolean in the result
records whether the untested diagnostic was printed. -/
def manager_filter_configs (subs : List SubRecord)
    (protocols : Option (List String)) (minRate : Option ℚ)
    (maxLatency : Option Int) (subscriptionTags : Option (List String))
    (configTags : Option (List String)) (matcher : Option (String → Bool)) :
    Except MgrErr (List PyConfig × Bool) :=
  let badRate := badRateCheck minRate
  if badRate then .error (.valueError "min_success_rate must be between 0.0 and 1.0")
  else
    let badLatency := badLatencyCheck maxLatency
    if badLatency then .error (.valueError "max_latency must be non-negative")
    else
      let all0 : List PyConfig := (get_all_configs subs).map PyConfig.strv
      let diagnosed : Except MgrErr Bool :=
        if minRate.isSome || maxLatency.isSome then
          match exFilter pyTested all0 with
          | .error e => .error (.runtime e)
          | .ok tested => .ok tested.isEmpty
        else .ok false
      match diagnosed with
      | .error e => .error e
      | .ok diagnostic =>
        let r5 := mgrStep (mgrStep (mgrStep (mgrStep (mgrStep
          (.ok (mgrInitial subs subscriptionTags))
          (mgrProtocolsStage protocols)) (mgrRateStage minRate))
          (mgrLatencyStage maxLatency)) (mgrTagsStage configTags))
          (mgrNameStage matcher)
        match r5 with
        | .error e => .error e
        | .ok l => .ok (l, diagnostic)

/-! ## Probe orchestration (src/v2root/v2root.py 515 to 823) -/

/-- The probe tiers, in the order the code can invoke them. -/
inductive Tier where
  | ttfb
  | quick
  | full
  | raw
deriving DecidableEq, Repr

/-- The dictionary returned by measure_ttfb_ (success flag and latency). -/
structure MeasureOutcome where
  success : Bool
  ttfb_ms : Int
deriving DecidableEq, Repr

/-- The normalized dictionary returned by probe_quick_ or probe_full_; both
turn an error code from the native call into a failed result instead of
raising. -/
structure ProbeOutcome where
  success : Bool
  total_ms : Int
deriving DecidableEq, Repr

/-- The raw native connectivity test: return code and measured latency. -/
structure RawOutcome where
  code : Int
  latency : Int
deriving DecidableEq, Repr

/-- The opaque lower-level prober: one outcome per tier for the endpoint
under evaluation.  An error value models the call itself raising. -/
structure ProbeEnv where
  ttfb : Except Unit MeasureOutcome
  quick : Except Unit ProbeOutcome
  full : ProbeOutcome
  raw : RawOutcome

/-- V2ROOT.test_single_config_: try measure_ttfb_, then probe_quick_, and
return -1 when both fail; any exception inside the try block is caught and
also yields -1.  The second component records which tiers were invoked. -/
def test_single_config (env : ProbeEnv) : Int × List Tier :=
  match env.ttfb with
  | .error _ => (-1, [Tier.ttfb])
  | .ok t =>
    if t.success then (t.ttfb_ms, [Tier.ttfb])
    else
      match env.quick with
      | .error _ => (-1, [Tier.ttfb, Tier.quick])
      | .ok q =>
        if q.success then (q.total_ms, [Tier.ttfb, Tier.quick])
        else (-1, [Tier.ttfb, Tier.quick])

/-- V2ROOT.test_connection: try measure_ttfb_ (its exceptions are caught and
logged), then probe_full_, then the raw native connectivity test, which
raises when its return code is nonzero.  The second component records which
tiers were invoked. -/
def test_connection (env : ProbeEnv) : Except Unit Int × List Tier :=
  let fallback : List Tier → Except Unit Int × List Tier := fun tried =>
    if env.full.success then (.ok env.full.total_ms, tried ++ [Tier.full])
    else if env.raw.code = 0 then
      (.ok env.raw.latency, tried ++ [Tier.full, Tier.raw])
    else (.error (), tried ++ [Tier.full, Tier.raw])
  match env.ttfb with
  | .error _ => fallback [Tier.ttfb]
  | .ok t =>
    if t.success then (.ok t.ttfb_ms, [Tier.ttfb]) else fallback [Tier.ttfb]

/-! ## Batch ranking -/

/-- Rank ordering used by the batch ranking: by latency, ties by input
position, which is exactly a stable ascending sort by latency. -/
def rankLe (a b : Nat × String × Int) : Prop :=
  a.2.2 < b.2.2 ∨ (a.2.2 = b.2.2 ∧ a.1 ≤ b.1)

instance : DecidableRel rankLe := fun a b => by
  unfold rankLe; infer_instance

instance : IsTotal (Nat × String × Int) rankLe where
  total a b := by unfold rankLe; omega

instance : IsTrans (Nat × String × Int) rankLe where
  trans a b c := by unfold rankLe; omega

/-- Modelled from the spec: V2ROOT.batch_test is invoked by
src/examples/subscription_manager.py but its definition is not under src/.
Spec section 4.5: results are collected only for candidates whose probe
succeeded, and the list is sorted ascending by latency with ties broken by
input order (stable sort).  The probe argument abstracts the per-candidate
evaluation: some latency on success, none on failure.  This indexed form
keeps each success paired with its input position. -/
def batchRanked (cands : List String) (probe : String → Option Int) :
    List (Nat × String × Int) :=
  let successes := cands.enum.filterMap
    (fun ic => (probe ic.2).map (fun l => (ic.1, ic.2, l)))
  List.insertionSort rankLe successes

/-- Modelled from the spec: the (endpoint, latency) pairs surfaced to the
caller of V2ROOT.batch_test, the positions dropped. -/
def batch_test (cands : List String) (probe : String → Option Int) :
    List (String × Int) :=
  (batchRanked cands probe).map (fun t => (t.2.1, t.2.2))

/-! ## Sample values used by concrete witnesses -/

/-- A subscription state with balanced counters (5 = 3 + 2). -/
def sampleState : SubState := ⟨[], 0, false, "", 5, 3, 2⟩

/-- A tested record: latency 50, one success, no failure. -/
def sampleTested : ConfigMetadata :=
  { mkConfigMetadata "vless://u@h:1" with last_latency := 50, success_count := 1 }

/-- A store with one enabled subscription holding one untested config. -/
def sampleStore : List SubRecord :=
  [⟨true, [], [mkConfigMetadata "vless://u@h:1"]⟩]

/-- A probe environment in which every tier fails (the TTFB and quick
probes return unsuccessful results, the full probe is unsuccessful, the raw
native test returns a negative code). -/
def allFailEnv : ProbeEnv := ⟨.ok ⟨false, 0⟩, .ok ⟨false, 0⟩, ⟨false, 0⟩, ⟨-2, 0⟩⟩

/-- Whether the TTFB tier of an environment succeeds (an exception counts
as failure). -/
def ttfbSucceeded (env : ProbeEnv) : Bool :=
  match env.ttfb with
  | .ok t => t.success
  | .error _ => false

/-- Whether the quick-probe tier of an environment succeeds. -/
def quickSucceeded (env : ProbeEnv) : Bool :=
  match env.quick with
  | .ok q => q.success
  | .error _ => false

/-! # Theorems -/

/-! ## C10: to_dict / from_dict round trip -/

/-- C10: for every ConfigMetadata value, from_dict applied to to_dict
reproduces the value exactly on all ten fields, even where a stored field
differs from what the constructor would re-derive from the config string
(the stored value always wins because every key is present). -/
theorem c10_from_dict_to_dict_roundtrip (c : ConfigMetadata) :
    ConfigMetadata.from_dict (ConfigMetadata.to_dict c) = .ok c := by
  cases c; rfl

/-- C10 witness: the round trip at a record whose stored protocol differs
from the derived one. -/
theorem c10_from_dict_to_dict_roundtrip_witness :
    ConfigMetadata.from_dict
      (ConfigMetadata.to_dict { mkConfigMetadata "vless://u@h:1" with protocol := "stored" }) =
      .ok { mkConfigMetadata "vless://u@h:1" with protocol := "stored" } :=
  c10_from_dict_to_dict_roundtrip _

/-! ## C5: parsing is total with unknown and 443 defaults -/

theorem splitOnceSeq_eq_none_of_not_contains (sep : List Char) :
    ∀ cs : List Char, containsSeq sep cs = false → splitOnceSeq sep cs = none := by
  intro cs
  induction cs with
  | nil => intro _; rfl
  | cons c rest ih =>
    intro h
    simp only [containsSeq, Bool.or_eq_false_iff] at h
    simp only [splitOnceSeq, h.1, if_false, Bool.false_eq_true, ih h.2]
    rfl

/-- C5: constructing a ConfigMetadata never raises (the constructor is a
total function by construction, mirroring the per-extractor exception
handlers): a string not starting case-insensitively with one of the five
scheme prefixes yields protocol unknown, and a string without the scheme
separator, from which no host or port can be extracted, yields address
unknown and the default port 443. -/
theorem c5_parsing_total_with_defaults :
    (∀ s : String,
      (∀ p ∈ [("vmess://" : String), "vless://", "trojan://", "ss://", "ssr://"],
        ¬ p.data.isPrefixOf (s.data.map Char.toLower) = true) →
      extract_protocol s = "unknown" ∧
      (mkConfigMetadata s).protocol = "unknown") ∧
    (∀ s : String, containsSeq "://".data s.data = false →
      extract_address s = "unknown" ∧ extract_port s = 443 ∧
      (mkConfigMetadata s).address = "unknown" ∧ (mkConfigMetadata s).port = 443) := by
  constructor
  · intro s h
    have h1 := h "vmess://" (by simp)
    have h2 := h "vless://" (by simp)
    have h3 := h "trojan://" (by simp)
    have h4 := h "ss://" (by simp)
    have h5 := h "ssr://" (by simp)
    have hp : extract_protocol s = "unknown" := by
      simp only [extract_protocol]
      rw [if_neg h1, if_neg h2, if_neg h3, if_neg h4, if_neg h5]
    exact ⟨hp, hp⟩
  · intro s h
    have hsplit := splitOnceSeq_eq_none_of_not_contains "://".data s.data h
    have ha : extract_address s = "unknown" := by
      simp only [extract_address, hsplit]
    have hp : extract_port s = 443 := by
      simp only [extract_port, hsplit]
    exact ⟨ha, hp, ha, hp⟩

/-- C5 witness: both parts of the totality theorem at concrete strings
without a recognized scheme. -/
theorem c5_parsing_total_with_defaults_witness :
    extract_protocol "hello world" = "unknown" ∧
    extract_address "hello world" = "unknown" ∧
    extract_port "hello world" = 443 :=
  ⟨(c5_parsing_total_with_defaults.1 "hello world" (by decide)).1,
   (c5_parsing_total_with_defaults.2 "hello world" (by decide)).1,
   (c5_parsing_total_with_defaults.2 "hello world" (by decide)).2.1⟩

/-! ## C1: a feed with zero valid lines makes fetch raise FetchError,
not ParseError -/

/-- C1 (code bug evidence): on a transport success whose body is
"not a config", the parse stage raises ParseError, but fetch surfaces a
FetchError (its generic except handler wraps the ParseError), and a
FetchError value is never equal to a ParseError value, so the caller cannot
see the parse-category failure that the fetch docstring and the spec
promise. -/
theorem c1_fetch_wraps_parse_error_into_fetch_error :
    parse_content [] "not a config" =
      .error (.parseError "No valid configurations found in subscription") ∧
    (fetch sampleState (.ok "not a config") 100).2 =
      .error (.fetchError
        ("Unexpected error fetching subscription: " ++
          "No valid configurations found in subscription")) ∧
    (∀ m1 m2 : String, SubError.fetchError m1 ≠ SubError.parseError m2) := by
  refine ⟨rfl, rfl, ?_⟩
  intro m1 m2 h
  exact SubError.noConfusion h

/-! ## C3: the update counters are not balanced by a parse failure -/

/-- C3 (code bug evidence): a fetch whose transport succeeds but whose body
parses to zero valid lines increments total_updates once and increments
BOTH successful_updates (before parsing) and failed_updates (in the except
handler), so total_updates = successful_updates + failed_updates is not
preserved, and successful_updates grows on a call that terminates in an
error. -/
theorem c3_parse_failure_increments_both_counters :
    (fetch sampleState (.ok "not a config") 100).1.total_updates =
      sampleState.total_updates + 1 ∧
    (fetch sampleState (.ok "not a config") 100).1.successful_updates =
      sampleState.successful_updates + 1 ∧
    (fetch sampleState (.ok "not a config") 100).1.failed_updates =
      sampleState.failed_updates + 1 ∧
    sampleState.total_updates =
      sampleState.successful_updates + sampleState.failed_updates ∧
    (fetch sampleState (.ok "not a config") 100).1.total_updates ≠
      (fetch sampleState (.ok "not a config") 100).1.successful_updates +
      (fetch sampleState (.ok "not a config") 100).1.failed_updates := by
  refine ⟨rfl, rfl, rfl, rfl, ?_⟩
  decide

/-! ## C2: manager-level filtering of an untested store raises -/

/-- C2 (code bug evidence): with one untested config in the store, calling
the manager-level filter with a success-rate or latency bound raises
AttributeError instead of returning an empty list with a diagnostic:
get_all_configs returns raw strings and the tested-count comprehension
reads last_latency on them. -/
theorem c2_untested_store_filter_raises_attribute_error :
    manager_filter_configs sampleStore none (some (mkRat 1 2)) none none none none =
      .error (.runtime .attributeError) ∧
    manager_filter_configs sampleStore none none (some 200) none none none =
      .error (.runtime .attributeError) := by
  exact ⟨rfl, rfl⟩

/-! ## C4: merge of test history on re-parse -/

/-- With pairwise distinct descriptor strings, the first record found for a
record's own string is that record itself. -/
theorem find_self_of_nodup (l : List ConfigMetadata)
    (h : (l.map (fun c => c.config_string)).Nodup) :
    ∀ c ∈ l, l.find? (fun b => b.config_string == c.config_string) = some c := by
  induction l with
  | nil => intro c hc; cases hc
  | cons a t ih =>
    have hn := List.nodup_cons.mp h
    intro c hc
    cases hc with
    | head => simp [List.find?]
    | tail _ hc =>
      have hne : a.config_string ≠ c.config_string := by
        intro he
        apply hn.1
        show a.config_string ∈ List.map (fun c => c.config_string) t
        rw [he]
        exact List.mem_map_of_mem (fun c => c.config_string) hc
      have hpa : (a.config_string == c.config_string) = false := by
        simp [hne]
      simp only [List.find?, hpa]
      exact ih hn.2 c hc

/-- The record produced for a descriptor string by the merge step, when the
previous list has distinct strings and the string belongs to a previous
record: the fresh record with that record's statistics copied over. -/
theorem mergeConfig_of_mem (old : List ConfigMetadata)
    (h : (old.map (fun c => c.config_string)).Nodup) (c : ConfigMetadata)
    (hc : c ∈ old) :
    mergeConfig old c.config_string =
      { mkConfigMetadata c.config_string with
          last_test_time := c.last_test_time
          last_latency := c.last_latency
          success_count := c.success_count
          failure_count := c.failure_count
          tags := c.tags } := by
  simp only [mergeConfig, find_existing_config, find_self_of_nodup old h c hc]

/-- C4 counterexample: when the previous list holds two records with the
SAME descriptor string whose statistics have diverged, re-parsing the
unchanged two-line feed copies the FIRST record's statistics onto both new
records, so the second endpoint's success_count changes from 3 to 0 even
though the feed is unchanged. -/
theorem c4_duplicate_descriptor_counterexample :
    validConfigLines "vless://u@h:1\nvless://u@h:1" =
      [mkConfigMetadata "vless://u@h:1",
       { mkConfigMetadata "vless://u@h:1" with success_count := 3 }].map
        (fun c => c.config_string) ∧
    (parse_content
        [mkConfigMetadata "vless://u@h:1",
         { mkConfigMetadata "vless://u@h:1" with success_count := 3 }]
        "vless://u@h:1\nvless://u@h:1").map
      (fun l => l.map (fun c => c.success_count)) = .ok [0, 0] ∧
    [mkConfigMetadata "vless://u@h:1",
     { mkConfigMetadata "vless://u@h:1" with success_count := 3 }].map
      (fun c => c.success_count) = [0, 3] := by
  exact ⟨rfl, rfl, rfl⟩

/-- C4 amended: the new record for a surviving line carries forward the
statistics of the FIRST previous record with an identical descriptor
string; in particular, re-parsing an unchanged feed leaves every
endpoint's test statistics unchanged whenever the previous records have
pairwise distinct descriptor strings (without that proviso the
counterexample above applies). -/
theorem c4_reparse_preserves_stats_of_nodup (old : List ConfigMetadata)
    (content : String)
    (hfeed : validConfigLines content = old.map (fun c => c.config_string))
    (hnd : (old.map (fun c => c.config_string)).Nodup)
    (hne : old ≠ []) :
    parse_content old content =
      .ok (old.map (fun c =>
        { mkConfigMetadata c.config_string with
            last_test_time := c.last_test_time
            last_latency := c.last_latency
            success_count := c.success_count
            failure_count := c.failure_count
            tags := c.tags })) := by
  have hvne : ((old.map (fun c => c.config_string)).isEmpty) = false := by
    cases old with
    | nil => exact absurd rfl hne
    | cons a t => rfl
  simp only [parse_content, hfeed, hvne, Bool.false_eq_true, if_false,
    List.map_map]
  congr 1
  refine List.map_congr_left ?_
  intro c hc
  simp only [Function.comp_apply]
  exact mergeConfig_of_mem old hnd c hc

/-- C4 witness: the amended theorem at a one-record list whose statistics
are nontrivial, with the matching one-line feed. -/
theorem c4_reparse_preserves_stats_of_nodup_witness :
    parse_content [{ mkConfigMetadata "vless://u@h:1" with success_count := 3 }]
        "vless://u@h:1" =
      .ok ([{ mkConfigMetadata "vless://u@h:1" with success_count := 3 }].map
        (fun c =>
          { mkConfigMetadata c.config_string with
              last_test_time := c.last_test_time
              last_latency := c.last_latency
              success_count := c.success_count
              failure_count := c.failure_count
              tags := c.tags })) :=
  c4_reparse_preserves_stats_of_nodup _ _ (by decide) (by decide) (by decide)

/-! ## C6: display-name extraction -/

/-- C6 counterexample: for a descriptor with no fragment whose remark
parameter value abcde is not valid base64 (five data characters), the claim
says the verbatim value abcde is used, but the code falls through to the
fixed placeholder: the except handler around b64decode only passes, so the
matched group is never returned verbatim. -/
theorem c6_failed_decode_yields_placeholder_not_verbatim :
    ("vmess://h?remark=abcde".data).contains '#' = false ∧
    findRemarkGroup ("vmess://h?remark=abcde".data) = some "abcde".data ∧
    pyB64DecodeUtf8 ("abcde".data) = none ∧
    extract_name "vmess://h?remark=abcde" = "Unnamed Config" ∧
    extract_name "vmess://h?remark=abcde" ≠ "abcde" := by
  exact ⟨rfl, rfl, rfl, rfl, by decide⟩

/-- C6 amended: the extracted display name is the percent-decoded fragment
after a hash sign when one occurs; otherwise, when a remark or remarks
parameter matches and its value decodes (base64 then UTF-8), the decoded
value; in every other case the fixed placeholder — the verbatim parameter
value is never used. -/
theorem c6_name_extraction_order :
    (∀ s : String, s.data.contains '#' = true →
      extract_name s = ⟨pyUnquote (afterFirstChar '#' s.data)⟩) ∧
    (∀ s : String, ∀ g d : List Char, s.data.contains '#' = false →
      findRemarkGroup s.data = some g → pyB64DecodeUtf8 g = some d →
      extract_name s = ⟨d⟩) ∧
    (∀ s : String, ∀ g : List Char, s.data.contains '#' = false →
      findRemarkGroup s.data = some g → pyB64DecodeUtf8 g = none →
      extract_name s = "Unnamed Config") ∧
    (∀ s : String, s.data.contains '#' = false →
      findRemarkGroup s.data = none →
      extract_name s = "Unnamed Config") := by
  refine ⟨?_, ?_, ?_, ?_⟩
  · intro s h
    simp only [extract_name, h, if_true]
  · intro s g d h hg hd
    simp only [extract_name, h, Bool.false_eq_true, if_false, hg, hd]
  · intro s g h hg hd
    simp only [extract_name, h, Bool.false_eq_true, if_false, hg, hd]
  · intro s h hg
    simp only [extract_name, h, Bool.false_eq_true, if_false, hg]

/-- C6 witness: the four branches of the extraction order at concrete
descriptors (fragment, good remark, undecodable remark, no remark). -/
theorem c6_name_extraction_order_witness :
    extract_name "vmess://h#My%20Node" = "My Node" ∧
    extract_name "vmess://h?remarks=aGk=" = "hi" ∧
    extract_name "vmess://h?remark=abcde" = "Unnamed Config" ∧
    extract_name "trojan://h" = "Unnamed Config" := by
  refine ⟨?_, ?_, ?_, ?_⟩
  · have h := c6_name_extraction_order.1 "vmess://h#My%20Node" (by decide)
    rw [h]; decide
  · have h := c6_name_extraction_order.2.1 "vmess://h?remarks=aGk="
      "aGk=".data "hi".data (by decide) (by decide) (by decide)
    rw [h]
  · exact c6_name_extraction_order.2.2.1 "vmess://h?remark=abcde"
      "abcde".data (by decide) (by decide) (by decide)
  · exact c6_name_extraction_order.2.2.2 "trojan://h" (by decide) (by decide)

/-! ## C7: latency and success-rate filters admit only tested configs -/

theorem mem_of_mem_filterByProtocols {c : ConfigMetadata}
    {protocols : Option (List String)} {l : List ConfigMetadata}
    (h : c ∈ filterByProtocols protocols l) : c ∈ l := by
  cases protocols with
  | none => exact h
  | some ps =>
    by_cases hps : ps.isEmpty
    · simpa [filterByProtocols, hps] using h
    · simp only [filterByProtocols, hps, Bool.false_eq_true, if_false] at h
      exact (List.mem_filter.mp h).1

theorem mem_filterByRate_some {c : ConfigMetadata} {r : ℚ}
    {l : List ConfigMetadata} (h : c ∈ filterByRate (some r) l) :
    c ∈ l ∧ 0 < c.success_count + c.failure_count ∧ r ≤ c.get_success_rate := by
  simp only [filterByRate] at h
  have := List.mem_filter.mp h
  refine ⟨this.1, ?_, ?_⟩
  · have hb := this.2
    simp only [Bool.and_eq_true, decide_eq_true_eq] at hb
    exact hb.1
  · have hb := this.2
    simp only [Bool.and_eq_true, decide_eq_true_eq] at hb
    exact hb.2

theorem mem_of_mem_filterByRate {c : ConfigMetadata} {minRate : Option ℚ}
    {l : List ConfigMetadata} (h : c ∈ filterByRate minRate l) : c ∈ l := by
  cases minRate with
  | none => exact h
  | some r => exact (mem_filterByRate_some h).1

theorem mem_filterByLatency_some {c : ConfigMetadata} {x : Int}
    {l : List ConfigMetadata} (h : c ∈ filterByLatency (some x) l) :
    c ∈ l ∧ 0 < c.last_latency ∧ c.last_latency ≤ x := by
  simp only [filterByLatency] at h
  have := List.mem_filter.mp h
  have hb := this.2
  simp only [Bool.and_eq_true, decide_eq_true_eq] at hb
  exact ⟨this.1, hb.1, hb.2⟩

theorem mem_of_mem_filterByLatency {c : ConfigMetadata}
    {maxLatency : Option Int} {l : List ConfigMetadata}
    (h : c ∈ filterByLatency maxLatency l) : c ∈ l := by
  cases maxLatency with
  | none => exact h
  | some x => exact (mem_filterByLatency_some h).1

theorem mem_of_mem_filterByTags {c : ConfigMetadata}
    {tags : Option (List String)} {l : List ConfigMetadata}
    (h : c ∈ filterByTags tags l) : c ∈ l := by
  cases tags with
  | none => exact h
  | some ts =>
    by_cases hts : ts.isEmpty
    · simpa [filterByTags, hts] using h
    · simp only [filterByTags, hts, Bool.false_eq_true, if_false] at h
      exact (List.mem_filter.mp h).1

theorem mem_of_mem_filterByName {c : ConfigMetadata}
    {matcher : Option (String → Bool)} {l : List ConfigMetadata}
    (h : c ∈ filterByName matcher l) : c ∈ l := by
  cases matcher with
  | none => exact h
  | some m => exact (List.mem_filter.mp h).1

/-- The successful result of Subscription.filter_configs is the composite of
the five stages. -/
theorem sub_filter_configs_ok {configs : List ConfigMetadata}
    {protocols : Option (List String)} {minRate : Option ℚ}
    {maxLatency : Option Int} {tags : Option (List String)}
    {matcher : Option (String → Bool)} {out : List ConfigMetadata} {diag : Bool}
    (h : sub_filter_configs configs protocols minRate maxLatency tags matcher =
      .ok (out, diag)) :
    out = filterByName matcher (filterByTags tags (filterByLatency maxLatency
      (filterByRate minRate (filterByProtocols protocols configs)))) := by
  simp only [sub_filter_configs] at h
  split at h
  · exact Except.noConfusion h
  · split at h
    · exact Except.noConfusion h
    · have := (Except.ok.injEq _ _).mp h
      exact ((Prod.mk.injEq _ _ _ _).mp this).1.symm

/-- Members of a successful exception-aware comprehension come from the
input and passed the predicate. -/
theorem exFilter_ok_forall {α : Type} {p : α → Except PyErr Bool} :
    ∀ {l out : List α}, exFilter p l = .ok out →
      ∀ c ∈ out, c ∈ l ∧ p c = .ok true := by
  intro l
  induction l with
  | nil =>
    intro out h c hc
    simp only [exFilter] at h
    injection h with h
    subst h
    cases hc
  | cons x xs ih =>
    intro out h c hc
    simp only [exFilter] at h
    split at h
    · exact Except.noConfusion h
    · rename_i b hpx
      split at h
      · exact Except.noConfusion h
      · rename_i rest hrec
        injection h with h
        subst h
        cases b with
        | true =>
          simp only [if_true] at hc
          cases hc with
          | head => exact ⟨List.mem_cons_self _ _, hpx⟩
          | tail _ hc2 =>
            have := ih hrec c hc2
            exact ⟨List.mem_cons_of_mem _ this.1, this.2⟩
        | false =>
          simp only [Bool.false_eq_true, if_false] at hc
          have := ih hrec c hc
          exact ⟨List.mem_cons_of_mem _ this.1, this.2⟩

/-- A successful pipeline step decomposes into a successful accumulator and
a successful comprehension. -/
theorem mgrStep_ok {acc : Except MgrErr (List PyConfig)}
    {f : List PyConfig → Except PyErr (List PyConfig)} {out : List PyConfig}
    (h : mgrStep acc f = .ok out) : ∃ l, acc = .ok l ∧ f l = .ok out := by
  cases acc with
  | error e => exact Except.noConfusion h
  | ok l =>
    simp only [mgrStep] at h
    split at h
    · exact Except.noConfusion h
    · rename_i l2 hf
      injection h with h
      subst h
      exact ⟨l, rfl, hf⟩

theorem mgrNameStage_ok_subset {matcher : Option (String → Bool)}
    {l out : List PyConfig} (h : mgrNameStage matcher l = .ok out) :
    ∀ c ∈ out, c ∈ l := by
  cases matcher with
  | none =>
    injection h with h
    subst h
    exact fun c hc => hc
  | some m => exact fun c hc => (exFilter_ok_forall h c hc).1

theorem mgrTagsStage_ok_subset {configTags : Option (List String)}
    {l out : List PyConfig} (h : mgrTagsStage configTags l = .ok out) :
    ∀ c ∈ out, c ∈ l := by
  cases configTags with
  | none =>
    injection h with h
    subst h
    exact fun c hc => hc
  | some ts =>
    simp only [mgrTagsStage] at h
    split at h
    · injection h with h
      subst h
      exact fun c hc => hc
    · exact fun c hc => (exFilter_ok_forall h c hc).1

theorem mgrLatencyStage_ok_subset {maxLatency : Option Int}
    {l out : List PyConfig} (h : mgrLatencyStage maxLatency l = .ok out) :
    ∀ c ∈ out, c ∈ l := by
  cases maxLatency with
  | none =>
    injection h with h
    subst h
    exact fun c hc => hc
  | some x => exact fun c hc => (exFilter_ok_forall h c hc).1

/-- Every config surviving the manager-level latency comprehension is a
ConfigMetadata value with a positive recorded latency within the bound (a
raw string would have raised before the comprehension succeeded). -/
theorem mgrLatencyStage_some_ok_mem {x : Int} {l out : List PyConfig}
    (h : mgrLatencyStage (some x) l = .ok out) :
    ∀ c ∈ out, ∃ m, c = PyConfig.metav m ∧
      0 < m.last_latency ∧ m.last_latency ≤ x := by
  intro c hc
  have hp := (exFilter_ok_forall h c hc).2
  cases c with
  | strv sv => exact Except.noConfusion hp
  | metav m =>
    refine ⟨m, rfl, ?_⟩
    have hp2 : (if 0 < m.last_latency then
        (Except.ok (decide (m.last_latency ≤ x)) : Except PyErr Bool)
        else Except.ok false) = .ok true := hp
    split at hp2
    · rename_i h0
      injection hp2 with hp2
      exact ⟨h0, of_decide_eq_true hp2⟩
    · injection hp2 with hp2
      exact absurd hp2 (by decide)

/-- Every config surviving the manager-level success-rate comprehension is a
ConfigMetadata value with at least one accumulated test and a rate at least
the bound. -/
theorem mgrRateStage_some_ok_mem {r : ℚ} {l out : List PyConfig}
    (h : mgrRateStage (some r) l = .ok out) :
    ∀ c ∈ out, ∃ m, c = PyConfig.metav m ∧
      0 < m.success_count + m.failure_count ∧ r ≤ m.get_success_rate := by
  intro c hc
  have hp := (exFilter_ok_forall h c hc).2
  cases c with
  | strv sv => exact Except.noConfusion hp
  | metav m =>
    refine ⟨m, rfl, ?_⟩
    have hp2 : (if 0 < m.success_count + m.failure_count then
        (Except.ok (decide (r ≤ m.get_success_rate)) : Except PyErr Bool)
        else Except.ok false) = .ok true := hp
    split at hp2
    · rename_i h0
      injection hp2 with hp2
      exact ⟨h0, of_decide_eq_true hp2⟩
    · injection hp2 with hp2
      exact absurd hp2 (by decide)

/-- A successful manager-level filter call decomposes into the successful
five-stage pipeline run from the (possibly rescoped) initial list. -/
theorem manager_filter_configs_ok_stages {subs : List SubRecord}
    {protocols : Option (List String)} {minRate : Option ℚ}
    {maxLatency : Option Int} {subscriptionTags : Option (List String)}
    {configTags : Option (List String)} {matcher : Option (String → Bool)}
    {out : List PyConfig} {diag : Bool}
    (h : manager_filter_configs subs protocols minRate maxLatency
      subscriptionTags configTags matcher = .ok (out, diag)) :
    mgrStep (mgrStep (mgrStep (mgrStep (mgrStep
      (.ok (mgrInitial subs subscriptionTags)) (mgrProtocolsStage protocols))
      (mgrRateStage minRate)) (mgrLatencyStage maxLatency))
      (mgrTagsStage configTags)) (mgrNameStage matcher) = .ok out := by
  simp only [manager_filter_configs] at h
  split at h
  · exact Except.noConfusion h
  · split at h
    · exact Except.noConfusion h
    · split at h
      · exact Except.noConfusion h
      · split at h
        · exact Except.noConfusion h
        · rename_i l hr5
          injection h with h
          rw [← ((Prod.mk.injEq _ _ _ _).mp h).1]
          exact hr5

/-- A store whose aggregated string list is empty has no config in any
enabled subscription. -/
theorem enabled_configs_nil :
    ∀ subs : List SubRecord, get_all_configs subs = [] →
      ∀ s ∈ subs, s.enabled = true → s.configs = [] := by
  intro subs
  induction subs with
  | nil => intro _ s hs; cases hs
  | cons a t ih =>
    intro hg s hs hen
    cases hae : a.enabled with
    | false =>
      have hg2 : get_all_configs t = [] := by
        simpa only [get_all_configs, List.filter_cons, hae, Bool.false_eq_true,
          if_false] using hg
      cases hs with
      | head => exact absurd hen (by rw [hae]; decide)
      | tail _ hs2 => exact ih hg2 s hs2 hen
    | true =>
      have hg2 : a.configs.map (fun c => c.config_string) ++
          get_all_configs t = [] := by
        simpa only [get_all_configs, List.filter_cons, hae, if_true,
          List.foldr_cons] using hg
      have hparts := List.append_eq_nil.mp hg2
      cases hs with
      | head => exact List.map_eq_nil_iff.mp hparts.1
      | tail _ hs2 => exact ih hparts.2 s hs2 hen

/-- The tag-rescoped record list is empty whenever every enabled
subscription has no configs. -/
theorem foldr_metav_nil :
    ∀ subs : List SubRecord,
      (∀ s ∈ subs, s.enabled = true → s.configs = []) →
      ∀ ts : List String,
        ((subs.filter (fun s => s.enabled && ts.any s.tags.contains)).foldr
          (fun s acc => s.configs.map PyConfig.metav ++ acc) []) = [] := by
  intro subs
  induction subs with
  | nil => intro _ _; rfl
  | cons a t ih =>
    intro hcfg ts
    have iht := ih (fun s hs => hcfg s (List.mem_cons_of_mem _ hs)) ts
    cases hpa : (a.enabled && ts.any a.tags.contains) with
    | false =>
      simpa only [List.filter_cons, hpa, Bool.false_eq_true, if_false]
        using iht
    | true =>
      have hen : a.enabled = true := by
        cases hae : a.enabled with
        | true => rfl
        | false => rw [hae] at hpa; simp at hpa
      have ha : a.configs = [] := hcfg a (List.mem_cons_self _ _) hen
      simp only [List.filter_cons, hpa, if_true, List.foldr_cons, ha,
        List.map_nil, List.nil_append]
      exact iht

/-- The initial pipeline list is empty whenever the store aggregates to no
config strings, in both the plain and the tag-rescoped branch. -/
theorem mgrInitial_nil {subs : List SubRecord}
    {subscriptionTags : Option (List String)}
    (hg : get_all_configs subs = []) :
    mgrInitial subs subscriptionTags = [] := by
  cases subscriptionTags with
  | none => simp [mgrInitial, hg]
  | some ts =>
    by_cases hts : ts.isEmpty
    · simp [mgrInitial, hts, hg]
    · simp only [mgrInitial, hts, Bool.false_eq_true, if_false]
      exact foldr_metav_nil subs (enabled_configs_nil subs hg) ts

theorem mgrStep_nil {f : List PyConfig → Except PyErr (List PyConfig)}
    (hf : f [] = .ok []) : mgrStep (.ok []) f = .ok [] := by
  simp [mgrStep, hf]

theorem mgrProtocolsStage_nil (protocols : Option (List String)) :
    mgrProtocolsStage protocols [] = .ok [] := by
  cases protocols with
  | none => rfl
  | some ps =>
    by_cases hps : ps.isEmpty <;> simp [mgrProtocolsStage, hps, exFilter]

theorem mgrRateStage_nil (minRate : Option ℚ) :
    mgrRateStage minRate [] = .ok [] := by
  cases minRate <;> rfl

theorem mgrLatencyStage_nil (maxLatency : Option Int) :
    mgrLatencyStage maxLatency [] = .ok [] := by
  cases maxLatency <;> rfl

theorem mgrTagsStage_nil (configTags : Option (List String)) :
    mgrTagsStage configTags [] = .ok [] := by
  cases configTags with
  | none => rfl
  | some ts =>
    by_cases hts : ts.isEmpty <;> simp [mgrTagsStage, hts, exFilter]

theorem mgrNameStage_nil (matcher : Option (String → Bool)) :
    mgrNameStage matcher [] = .ok [] := by
  cases matcher <;> rfl

/-- An in-range rate bound never trips the validation gate. -/
theorem badRate_false {minRate : Option ℚ}
    (hvr : ∀ r : ℚ, minRate = some r → 0 ≤ r ∧ r ≤ 1) :
    badRateCheck minRate = false := by
  unfold badRateCheck
  cases minRate with
  | none => rfl
  | some r =>
    have := hvr r rfl
    simp [this.1, this.2]

/-- A non-negative latency bound never trips the validation gate. -/
theorem badLatency_false {maxLatency : Option Int}
    (hvx : ∀ x : Int, maxLatency = some x → 0 ≤ x) :
    badLatencyCheck maxLatency = false := by
  unfold badLatencyCheck
  cases maxLatency with
  | none => rfl
  | some x =>
    have := hvx x rfl
    simp only [decide_eq_false_iff_not]
    omega

/-- C7: latency and success-rate filters never admit a config that has
accumulated zero tests, at both levels.  First conjunct: every config
returned by Subscription.filter_configs under a max_latency bound has a
positive recorded latency no larger than the bound, and under a
min_success_rate bound has at least one accumulated test and a rate at
least the bound.  Second conjunct: the same holds for every config returned
by SubscriptionManager.filter_configs (each such config is moreover a
ConfigMetadata value, not a raw string).  Third conjunct: with one of these
bounds set and in-range, the manager-level call raises AttributeError
whenever ANY config exists in an enabled subscription and returns the empty
list (with the untested diagnostic) otherwise — so the second conjunct is
proved through the comprehension predicates even though no reachable
successful call returns a nonempty list. -/
theorem c7_filters_never_admit_untested :
    (∀ (configs : List ConfigMetadata) (protocols : Option (List String))
      (minRate : Option ℚ) (maxLatency : Option Int)
      (tags : Option (List String)) (matcher : Option (String → Bool))
      (out : List ConfigMetadata) (diag : Bool),
      sub_filter_configs configs protocols minRate maxLatency tags matcher =
        .ok (out, diag) →
      ∀ c ∈ out,
        (∀ x : Int, maxLatency = some x →
          0 < c.last_latency ∧ c.last_latency ≤ x) ∧
        (∀ r : ℚ, minRate = some r →
          0 < c.success_count + c.failure_count ∧ r ≤ c.get_success_rate)) ∧
    (∀ (subs : List SubRecord) (protocols : Option (List String))
      (minRate : Option ℚ) (maxLatency : Option Int)
      (subscriptionTags configTags : Option (List String))
      (matcher : Option (String → Bool)) (out : List PyConfig) (diag : Bool),
      manager_filter_configs subs protocols minRate maxLatency
        subscriptionTags configTags matcher = .ok (out, diag) →
      ∀ c ∈ out,
        (∀ x : Int, maxLatency = some x →
          ∃ m, c = PyConfig.metav m ∧
            0 < m.last_latency ∧ m.last_latency ≤ x) ∧
        (∀ r : ℚ, minRate = some r →
          ∃ m, c = PyConfig.metav m ∧
            0 < m.success_count + m.failure_count ∧
            r ≤ m.get_success_rate)) ∧
    (∀ (subs : List SubRecord) (protocols : Option (List String))
      (minRate : Option ℚ) (maxLatency : Option Int)
      (subscriptionTags configTags : Option (List String))
      (matcher : Option (String → Bool)),
      (minRate.isSome || maxLatency.isSome) = true →
      (∀ r : ℚ, minRate = some r → 0 ≤ r ∧ r ≤ 1) →
      (∀ x : Int, maxLatency = some x → 0 ≤ x) →
      (get_all_configs subs ≠ [] →
        manager_filter_configs subs protocols minRate maxLatency
          subscriptionTags configTags matcher =
          .error (.runtime .attributeError)) ∧
      (get_all_configs subs = [] →
        manager_filter_configs subs protocols minRate maxLatency
          subscriptionTags configTags matcher = .ok ([], true))) := by
  refine ⟨?_, ?_, ?_⟩
  · intro configs protocols minRate maxLatency tags matcher out diag h c hc
    rw [sub_filter_configs_ok h] at hc
    have h3 := mem_of_mem_filterByTags (mem_of_mem_filterByName hc)
    constructor
    · intro x hx
      rw [hx] at h3
      exact (mem_filterByLatency_some h3).2
    · intro r hr
      have h2 := mem_of_mem_filterByLatency h3
      rw [hr] at h2
      exact (mem_filterByRate_some h2).2
  · intro subs protocols minRate maxLatency subscriptionTags configTags
      matcher out diag h c hc
    obtain ⟨l5, hA4, hname⟩ := mgrStep_ok (manager_filter_configs_ok_stages h)
    obtain ⟨l4, hA3, htags⟩ := mgrStep_ok hA4
    obtain ⟨l3, hA2, hlat⟩ := mgrStep_ok hA3
    obtain ⟨l2, hA1, hrate⟩ := mgrStep_ok hA2
    have hc5 : c ∈ l5 := mgrNameStage_ok_subset hname c hc
    have hc4 : c ∈ l4 := mgrTagsStage_ok_subset htags c hc5
    constructor
    · intro x hx
      rw [hx] at hlat
      exact mgrLatencyStage_some_ok_mem hlat c hc4
    · intro r hr
      have hc3 : c ∈ l3 := mgrLatencyStage_ok_subset hlat c hc4
      rw [hr] at hrate
      exact mgrRateStage_some_ok_mem hrate c hc3
  · intro subs protocols minRate maxLatency subscriptionTags configTags
      matcher hb hvr hvx
    have hbr := badRate_false hvr
    have hbl := badLatency_false hvx
    constructor
    · intro hne
      cases hg : get_all_configs subs with
      | nil => exact absurd hg hne
      | cons s rest =>
        simp only [manager_filter_configs, hbr, Bool.false_eq_true, if_false,
          hbl, hb, if_true, hg, List.map_cons]
        rfl
    · intro hg
      simp only [manager_filter_configs, hbr, Bool.false_eq_true, if_false,
        hbl, hb, if_true, hg, List.map_nil, mgrInitial_nil hg,
        mgrStep_nil (mgrProtocolsStage_nil protocols),
        mgrStep_nil (mgrRateStage_nil minRate),
        mgrStep_nil (mgrLatencyStage_nil maxLatency),
        mgrStep_nil (mgrTagsStage_nil configTags),
        mgrStep_nil (mgrNameStage_nil matcher)]
      rfl

/-- C7 witness: the subscription-level part with one tested config (latency
50, one success of one test) under both bounds; the manager-level dichotomy
at a nonempty tagged store (AttributeError) and at the empty store (empty
result with the diagnostic). -/
theorem c7_filters_never_admit_untested_witness :
    (0 < sampleTested.last_latency ∧ sampleTested.last_latency ≤ 100 ∧
     0 < sampleTested.success_count + sampleTested.failure_count ∧
     mkRat 1 2 ≤ sampleTested.get_success_rate) ∧
    manager_filter_configs [⟨true, ["x"], [sampleTested]⟩] none none
      (some 150) none none none = .error (.runtime .attributeError) ∧
    manager_filter_configs [] none none (some 150) none none none =
      .ok ([], true) := by
  refine ⟨?_, ?_, ?_⟩
  · have h := c7_filters_never_admit_untested.1 [sampleTested] none
      (some (mkRat 1 2)) (some 100) none none [sampleTested] false
      (by rfl) sampleTested (by decide)
    exact ⟨(h.1 100 rfl).1, (h.1 100 rfl).2, (h.2 (mkRat 1 2) rfl).1,
      (h.2 (mkRat 1 2) rfl).2⟩
  · exact (c7_filters_never_admit_untested.2.2 [⟨true, ["x"], [sampleTested]⟩]
      none none (some 150) none none none (by rfl)
      (fun r hr => Option.noConfusion hr)
      (fun x hx => by cases hx; decide)).1 (by decide)
  · exact (c7_filters_never_admit_untested.2.2 [] none none (some 150) none
      none none (by rfl) (fun r hr => Option.noConfusion hr)
      (fun x hx => by cases hx; decide)).2 (by rfl)

/-! ## C8: probe tier fallback -/

/-- C8 counterexample: in an environment where every tier fails,
single-endpoint evaluation via test_single_config returns the normalized
failure -1 after trying only the TTFB and quick tiers — the raw
connectivity tier is never attempted there — while test_connection, the
path that does attempt the raw tier (after TTFB and the full probe, not
the quick probe), raises instead of returning -1.  Neither routine matches
the claimed full, then quick, then raw sequence ending in -1. -/
theorem c8_tier_sequence_counterexample :
    test_single_config allFailEnv = (-1, [Tier.ttfb, Tier.quick]) ∧
    Tier.raw ∉ (test_single_config allFailEnv).2 ∧
    Tier.full ∉ (test_single_config allFailEnv).2 ∧
    (test_connection allFailEnv).1 = .error () ∧
    (test_connection allFailEnv).2 = [Tier.ttfb, Tier.full, Tier.raw] := by
  refine ⟨rfl, by decide, by decide, rfl, rfl⟩

/-- C8 amended: test_single_config tries the TTFB probe, then the quick
probe, in that order, stopping at the first success and returning its
latency; when neither succeeds (including when a tier raises) it returns
the normalized failure -1 without raising and without ever attempting the
raw or full tiers.  test_connection tries TTFB, then the full probe, then
the raw connectivity test, stopping at the first success, and raises when
all three fail. -/
theorem c8_tier_fallback_order (env : ProbeEnv) :
    (∀ t : MeasureOutcome, env.ttfb = .ok t → t.success = true →
      test_single_config env = (t.ttfb_ms, [Tier.ttfb])) ∧
    (∀ t : MeasureOutcome, ∀ q : ProbeOutcome, env.ttfb = .ok t →
      t.success = false → env.quick = .ok q → q.success = true →
      test_single_config env = (q.total_ms, [Tier.ttfb, Tier.quick])) ∧
    (ttfbSucceeded env = false → quickSucceeded env = false →
      (test_single_config env).1 = -1 ∧
      Tier.raw ∉ (test_single_config env).2 ∧
      Tier.full ∉ (test_single_config env).2) ∧
    (∀ t : MeasureOutcome, env.ttfb = .ok t → t.success = true →
      test_connection env = (.ok t.ttfb_ms, [Tier.ttfb])) ∧
    (ttfbSucceeded env = false → env.full.success = true →
      test_connection env = (.ok env.full.total_ms, [Tier.ttfb, Tier.full])) ∧
    (ttfbSucceeded env = false → env.full.success = false → env.raw.code ≠ 0 →
      test_connection env = (.error (), [Tier.ttfb, Tier.full, Tier.raw])) := by
  refine ⟨?_, ?_, ?_, ?_, ?_, ?_⟩
  · intro t ht hs
    simp only [test_single_config, ht, hs, if_true]
  · intro t q ht hs hq hqs
    simp only [test_single_config, ht, hs, Bool.false_eq_true, if_false, hq,
      hqs, if_true]
  · intro hts hqs
    cases henv : env.ttfb with
    | error e =>
      simp only [test_single_config, henv]
      exact ⟨trivial, by decide, by decide⟩
    | ok t =>
      have hts2 : t.success = false := by
        simpa only [ttfbSucceeded, henv] using hts
      cases hq : env.quick with
      | error e =>
        simp only [test_single_config, henv, hts2, Bool.false_eq_true,
          if_false, hq]
        exact ⟨trivial, by decide, by decide⟩
      | ok q =>
        have hqs2 : q.success = false := by
          simpa only [quickSucceeded, hq] using hqs
        simp only [test_single_config, henv, hts2, Bool.false_eq_true,
          if_false, hq, hqs2]
        exact ⟨trivial, by decide, by decide⟩
  · intro t ht hs
    simp only [test_connection, ht, hs, if_true]
  · intro hts hf
    cases henv : env.ttfb with
    | error e =>
      simp only [test_connection, henv, hf, if_true]
      rfl
    | ok t =>
      have hts2 : t.success = false := by
        simpa only [ttfbSucceeded, henv] using hts
      simp only [test_connection, henv, hts2, Bool.false_eq_true, if_false,
        hf, if_true]
      rfl
  · intro hts hf hr
    have hrc : (env.raw.code = 0) = False := by
      simp only [eq_iff_iff, iff_false]
      exact hr
    cases henv : env.ttfb with
    | error e =>
      simp only [test_connection, henv, hf, Bool.false_eq_true, if_false, hrc,
        if_false]
      rfl
    | ok t =>
      have hts2 : t.success = false := by
        simpa only [ttfbSucceeded, henv] using hts
      simp only [test_connection, henv, hts2, hf, Bool.false_eq_true,
        if_false, hrc, if_false]
      rfl

/-- C8 witness: the fallback order at concrete environments — a succeeding
TTFB tier, a succeeding quick tier after a failing TTFB tier, and the
all-fail environment for both routines. -/
theorem c8_tier_fallback_order_witness :
    test_single_config ⟨.ok ⟨true, 33⟩, .ok ⟨false, 0⟩, ⟨false, 0⟩, ⟨-2, 0⟩⟩ =
      (33, [Tier.ttfb]) ∧
    test_single_config ⟨.ok ⟨false, 0⟩, .ok ⟨true, 44⟩, ⟨false, 0⟩, ⟨-2, 0⟩⟩ =
      (44, [Tier.ttfb, Tier.quick]) ∧
    (test_single_config allFailEnv).1 = -1 ∧
    test_connection allFailEnv = (.error (), [Tier.ttfb, Tier.full, Tier.raw]) := by
  refine ⟨?_, ?_, ?_, ?_⟩
  · exact (c8_tier_fallback_order _).1 ⟨true, 33⟩ rfl rfl
  · exact (c8_tier_fallback_order _).2.1 ⟨false, 0⟩ ⟨true, 44⟩ rfl rfl rfl rfl
  · exact ((c8_tier_fallback_order allFailEnv).2.2.1 (by decide) (by decide)).1
  · exact (c8_tier_fallback_order allFailEnv).2.2.2.2.2 (by decide) (by decide)
      (by decide)

/-! ## C9: batch ranking is sorted and stable over successes -/

/-- The indices of the collected successes form a sublist of the candidate
indices (each candidate either contributes its own index or is dropped). -/
theorem batch_successes_idx_sublist (probe : String → Option Int) :
    ∀ l : List (Nat × String),
      ((l.filterMap (fun ic => (probe ic.2).map (fun v => (ic.1, ic.2, v)))).map
        (fun t => t.1)).Sublist (l.map (fun ic => ic.1)) := by
  intro l
  induction l with
  | nil => simp
  | cons a t ih =>
    simp only [List.filterMap_cons, List.map_cons]
    cases hp : probe a.2 with
    | none =>
      simp only [Option.map_none']
      exact ih.cons _
    | some v =>
      simp only [Option.map_some']
      simp only [List.map_cons]
      exact ih.cons₂ _

/-- The positions recorded in the ranked batch are pairwise distinct. -/
theorem batchRanked_idx_nodup (cands : List String)
    (probe : String → Option Int) :
    ((batchRanked cands probe).map (fun t => t.1)).Nodup := by
  have hperm : List.Perm (batchRanked cands probe) (cands.enum.filterMap
      (fun ic => (probe ic.2).map (fun v => (ic.1, ic.2, v)))) := by
    simpa only [batchRanked] using List.perm_insertionSort rankLe _
  have hsub := batch_successes_idx_sublist probe cands.enum
  have hnodup : ((cands.enum.filterMap
      (fun ic => (probe ic.2).map (fun v => (ic.1, ic.2, v)))).map
        (fun t => t.1)).Nodup := by
    refine hsub.nodup ?_
    have : cands.enum.map (fun ic => ic.1) = List.range cands.length := by
      simp [List.enum_map_fst]
    rw [this]
    exact List.nodup_range _
  exact ((hperm.map (fun t => t.1)).nodup_iff).mpr hnodup

/-- C9: the batch ranking returns a pair only for candidates whose probe
succeeded (with exactly the measured latency), the returned list is sorted
ascending by latency, and equal latencies keep strictly increasing input
positions — the stable tie-break by input order. -/
theorem c9_batch_sorted_stable (cands : List String)
    (probe : String → Option Int) :
    (∀ p ∈ batch_test cands probe, probe p.1 = some p.2) ∧
    List.Pairwise (fun a b => a.2 ≤ b.2) (batch_test cands probe) ∧
    List.Pairwise (fun a b => a.2.2 < b.2.2 ∨ (a.2.2 = b.2.2 ∧ a.1 < b.1))
      (batchRanked cands probe) := by
  have hperm : List.Perm (batchRanked cands probe) (cands.enum.filterMap
      (fun ic => (probe ic.2).map (fun v => (ic.1, ic.2, v)))) := by
    simpa only [batchRanked] using List.perm_insertionSort rankLe _
  have hsorted : List.Pairwise rankLe (batchRanked cands probe) := by
    simpa only [batchRanked] using List.sorted_insertionSort rankLe
      (cands.enum.filterMap (fun ic => (probe ic.2).map (fun v => (ic.1, ic.2, v))))
  refine ⟨?_, ?_, ?_⟩
  · intro p hp
    simp only [batch_test, List.mem_map] at hp
    obtain ⟨t, ht, hpt⟩ := hp
    have ht2 := hperm.mem_iff.mp ht
    simp only [List.mem_filterMap] at ht2
    obtain ⟨ic, _, hic⟩ := ht2
    cases hpr : probe ic.2 with
    | none => rw [hpr] at hic; exact Option.noConfusion hic
    | some v =>
      rw [hpr] at hic
      simp only [Option.map_some', Option.some.injEq] at hic
      rw [← hpt, ← hic]
      exact hpr
  · simp only [batch_test]
    rw [List.pairwise_map]
    refine hsorted.imp ?_
    intro a b hab
    rcases hab with h | ⟨h, _⟩
    · exact le_of_lt h
    · exact le_of_eq h
  · have hidx : List.Pairwise (fun a b : Nat × String × Int => a.1 ≠ b.1)
        (batchRanked cands probe) := by
      have := batchRanked_idx_nodup cands probe
      rw [List.Nodup, List.pairwise_map] at this
      exact this
    refine (hsorted.and hidx).imp ?_
    intro a b hab
    rcases hab with ⟨h | ⟨heq, hle⟩, hne⟩
    · exact Or.inl h
    · exact Or.inr ⟨heq, lt_of_le_of_ne hle hne⟩

/-- C9 witness: the success-only property applied at a concrete batch in
which two candidates tie at latency 10, one succeeds at 20 and one fails. -/
theorem c9_batch_sorted_stable_witness :
    (fun s => if s = "b" then some (10 : Int) else if s = "d" then some 10
      else if s = "a" then some 20 else none) "b" = some 10 :=
  (c9_batch_sorted_stable ["a", "b", "c", "d"]
    (fun s => if s = "b" then some (10 : Int) else if s = "d" then some 10
      else if s = "a" then some 20 else none)).1 ("b", 10) (by decide)

end V2Root
